import Mathlib

set_option maxRecDepth 10000

/-!
Verification of the raygen9 table generator (src/raygen9.cpp).

A hand identifier (ID) is a 64-bit value packing nine 7-bit card slots:
five board slots in the low 35 bits, four pocket slots above them
(`pack64` / `unpack64` in the C source).  We model IDs as `Nat` and the
slot vector as a little-endian base-128 digit list.  The external Cactus
Kev oracle tables (`flushes`, `unique5`, `values`, `cactus_findit`,
`cactus_to_ray`, declared in arrays.h, outside this translation unit)
are taken as function parameters.
-/

/-- Little-endian base-128 (7 bits per digit) packing of a slot list. -/
def fromSlots : List Nat → Nat
  | [] => 0
  | x :: xs => x + 128 * fromSlots xs

/-- Slot extraction, the C expression (id >> (7 * i)) & 0x7F. -/
def getSlot (id : Nat) (i : Nat) : Nat := (id >>> (7 * i)) &&& 127

/-- All nine 7-bit card slots of an ID, board slots 0-4 first, then pocket
slots 5-8. -/
def slots9 (id : Nat) : List Nat := (List.range 9).map (getSlot id)

/-- count_cards (raygen9.cpp): the number of non-zero 7-bit slots among the
nine slots of an ID (the C source spells this as a sum of nine indicator
terms, one per slot). -/
def count_cards (id : Nat) : Nat := (slots9 id).countP (fun c => decide (c ≠ 0))

/-- Board part of unpack64 (raygen9.cpp): the non-zero cards among slots
0..4, in slot order. -/
def boardOf (id : Nat) : List Nat :=
  ((slots9 id).take 5).filter (fun c => decide (c ≠ 0))

/-- Pocket part of unpack64 (raygen9.cpp): the non-zero cards among slots
5..8, in slot order. -/
def pocketOf (id : Nat) : List Nat :=
  ((slots9 id).drop 5).filter (fun c => decide (c ≠ 0))

/-- unpack64 (raygen9.cpp): pocket and board lists of an ID (n_pocket and
n_board of the C source are the lengths of the two lists). -/
def unpack64 (id : Nat) : List Nat × List Nat := (pocketOf id, boardOf id)

/-- Pad a list with zeros up to length n, as the zero-initialised C arrays
pocket[4] and board[5] are before being filled. -/
def padTo (l : List Nat) (n : Nat) : List Nat := l ++ List.replicate (n - l.length) 0

/-- Descending sort: the C source sorts ascending with std::sort and then
reverses (pack64, raygen9.cpp). -/
def sortDesc (l : List Nat) : List Nat := (l.insertionSort (· ≤ ·)).reverse

/-- pack64 (raygen9.cpp): sort pocket and board descending and pack the
board into slots 0..4 and the pocket into slots 5..8. -/
def pack64 (pocket board : List Nat) : Nat :=
  fromSlots (sortDesc (padTo board 5) ++ sortDesc (padTo pocket 4))

/-- add_card (raygen9.cpp): append to the board while it has fewer than 5
cards, then to the pocket. -/
def add_card (new_card : Nat) (pocket board : List Nat) : List Nat × List Nat :=
  if board.length < 5 then (pocket, board ++ [new_card]) else (pocket ++ [new_card], board)

/-- skip_board (raygen9.cpp): drop the SKIP_BOARD = 53 sentinels from the
board and compact the remaining cards. -/
def skip_board (board : List Nat) : List Nat := board.filter (fun c => decide (c ≠ 53))

/- ### Basic facts about slots, packing and unpacking -/

theorem getSlot_eq_mod (id i : Nat) : getSlot id i = (id >>> (7 * i)) % 128 := by
  have h := Nat.and_pow_two_sub_one_eq_mod (id >>> (7 * i)) 7
  simpa [getSlot] using h

theorem getSlot_zero_id (i : Nat) : getSlot 0 i = 0 := by
  simp [getSlot_eq_mod]

theorem getSlot_lt (id i : Nat) : getSlot id i < 128 := by
  rw [getSlot_eq_mod]
  exact Nat.mod_lt _ (by norm_num)

theorem getSlot_fromSlots (l : List Nat) (h : ∀ x ∈ l, x < 128) (i : Nat) :
    getSlot (fromSlots l) i = l.getD i 0 := by
  induction l generalizing i with
  | nil => simp [fromSlots, getSlot_zero_id]
  | cons x xs ih =>
    cases i with
    | zero =>
      rw [getSlot_eq_mod]
      show (x + 128 * fromSlots xs) >>> 0 % 128 = x
      rw [Nat.shiftRight_zero, Nat.add_mul_mod_self_left]
      exact Nat.mod_eq_of_lt (h x (by simp))
    | succ j =>
      have hx : x < 128 := h x (by simp)
      have hstep : (x + 128 * fromSlots xs) >>> (7 * (j + 1)) = fromSlots xs >>> (7 * j) := by
        rw [Nat.shiftRight_eq_div_pow, Nat.shiftRight_eq_div_pow]
        have h7 : (2 : Nat) ^ (7 * (j + 1)) = 128 * 2 ^ (7 * j) := by
          rw [Nat.mul_succ, pow_add]
          ring
        rw [h7, ← Nat.div_div_eq_div_mul]
        congr 1
        rw [Nat.add_mul_div_left _ _ (by norm_num : (0:Nat) < 128)]
        simp [Nat.div_eq_of_lt hx]
      rw [getSlot_eq_mod]
      show (x + 128 * fromSlots xs) >>> (7 * (j + 1)) % 128 = (x :: xs).getD (j + 1) 0
      rw [hstep, ← getSlot_eq_mod]
      rw [ih (fun y hy => h y (by simp [hy])) j]
      simp

theorem getD_map_range (l : List Nat) :
    (List.range l.length).map (fun i => l.getD i 0) = l := by
  induction l with
  | nil => simp
  | cons x xs ih =>
    rw [List.length_cons, List.range_succ_eq_map]
    simp only [List.map_cons, List.getD_cons_zero, List.map_map]
    have h : ((fun i => (x :: xs).getD i 0) ∘ Nat.succ) = fun i => xs.getD i 0 := by
      funext i
      simp [List.getD_cons_succ]
    rw [h, ih]

theorem slots9_fromSlots (l : List Nat) (hlen : l.length = 9) (h : ∀ x ∈ l, x < 128) :
    slots9 (fromSlots l) = l := by
  unfold slots9
  rw [← hlen]
  have hc : (List.range l.length).map (getSlot (fromSlots l)) =
      (List.range l.length).map (fun i => l.getD i 0) :=
    List.map_congr_left (fun i _ => getSlot_fromSlots l h i)
  rw [hc, getD_map_range]

theorem length_padTo (l : List Nat) (n : Nat) (h : l.length ≤ n) :
    (padTo l n).length = n := by
  simp [padTo]
  omega

theorem mem_padTo {x : Nat} {l : List Nat} {n : Nat} (h : x ∈ padTo l n) :
    x ∈ l ∨ x = 0 := by
  rcases List.mem_append.1 h with h1 | h2
  · exact Or.inl h1
  · exact Or.inr (List.mem_replicate.1 h2).2

theorem subset_padTo (l : List Nat) (n : Nat) : l ⊆ padTo l n := by
  intro x hx
  exact List.mem_append.2 (Or.inl hx)

theorem sortDesc_perm (l : List Nat) : (sortDesc l).Perm l := by
  exact (List.reverse_perm _).trans (List.perm_insertionSort _ l)

theorem mem_sortDesc {x : Nat} {l : List Nat} : x ∈ sortDesc l ↔ x ∈ l :=
  (sortDesc_perm l).mem_iff

theorem length_sortDesc (l : List Nat) : (sortDesc l).length = l.length :=
  (sortDesc_perm l).length_eq

theorem sortDesc_sorted (l : List Nat) : List.Sorted (fun a b => b ≤ a) (sortDesc l) := by
  rw [List.Sorted, sortDesc, List.pairwise_reverse]
  exact List.sorted_insertionSort _ l

theorem countP_padTo (p : Nat → Bool) (l : List Nat) (n : Nat) (hp : p 0 = false) :
    (padTo l n).countP p = l.countP p := by
  rw [padTo, List.countP_append, List.countP_replicate, hp]
  simp

theorem countP_sortDesc (p : Nat → Bool) (l : List Nat) :
    (sortDesc l).countP p = l.countP p :=
  (sortDesc_perm l).countP_eq p

theorem filter_padTo (l : List Nat) (n : Nat) :
    (padTo l n).filter (fun c => decide (c ≠ 0)) = l.filter (fun c => decide (c ≠ 0)) := by
  rw [padTo, List.filter_append]
  have h : (List.replicate (n - l.length) 0).filter (fun c => decide (c ≠ 0)) = [] := by
    simp [List.filter_replicate]
  rw [h, List.append_nil]

theorem slots9_pack64 (pocket board : List Nat)
    (hp : ∀ x ∈ pocket, x < 128) (hb : ∀ x ∈ board, x < 128)
    (hpl : pocket.length ≤ 4) (hbl : board.length ≤ 5) :
    slots9 (pack64 pocket board) = sortDesc (padTo board 5) ++ sortDesc (padTo pocket 4) := by
  apply slots9_fromSlots
  · rw [List.length_append, length_sortDesc, length_sortDesc,
      length_padTo _ _ hbl, length_padTo _ _ hpl]
  · intro x hx
    rcases List.mem_append.1 hx with h1 | h1
    · rcases mem_padTo (mem_sortDesc.1 h1) with h2 | h2
      · exact hb x h2
      · omega
    · rcases mem_padTo (mem_sortDesc.1 h1) with h2 | h2
      · exact hp x h2
      · omega

theorem boardOf_pack64 (pocket board : List Nat)
    (hp : ∀ x ∈ pocket, x < 128) (hb : ∀ x ∈ board, x < 128)
    (hpl : pocket.length ≤ 4) (hbl : board.length ≤ 5) :
    boardOf (pack64 pocket board) =
      (sortDesc (padTo board 5)).filter (fun c => decide (c ≠ 0)) := by
  unfold boardOf
  rw [slots9_pack64 pocket board hp hb hpl hbl]
  have hlen : (sortDesc (padTo board 5)).length = 5 := by
    rw [length_sortDesc, length_padTo _ _ hbl]
  rw [List.take_left' hlen]

theorem pocketOf_pack64 (pocket board : List Nat)
    (hp : ∀ x ∈ pocket, x < 128) (hb : ∀ x ∈ board, x < 128)
    (hpl : pocket.length ≤ 4) (hbl : board.length ≤ 5) :
    pocketOf (pack64 pocket board) =
      (sortDesc (padTo pocket 4)).filter (fun c => decide (c ≠ 0)) := by
  unfold pocketOf
  rw [slots9_pack64 pocket board hp hb hpl hbl]
  have hlen : (sortDesc (padTo board 5)).length = 5 := by
    rw [length_sortDesc, length_padTo _ _ hbl]
  rw [List.drop_left' hlen]

/- ### Card folding and the three transition functions -/

/-- Folding for the flush-suit automaton (add_card_to_id_flush_suits,
raygen9.cpp): a skip (0) becomes SKIP_BOARD = 53, a real card 1..52 folds
to its suit ((new_card - 1) & 3) + 1. -/
def fold_flush_suits (new_card : Nat) : Nat :=
  if new_card = 0 then 53 else ((new_card - 1) &&& 3) + 1

/-- Folding for the flush-rank automaton (add_card_to_id_flush_ranks,
raygen9.cpp): skip becomes 53; a card of the target suit folds to
(2 + ((new_card - 1) >> 2)) & 0xF (rank plus one, 2..14); any other card
folds to ANY_CARD = 1. -/
def fold_flush_ranks (new_card flush_suit : Nat) : Nat :=
  if new_card = 0 then 53
  else if ((new_card - 1) &&& 3) + 1 = flush_suit then (2 + ((new_card - 1) >>> 2)) &&& 15
  else 1

/-- Folding for the no-flush automaton (add_card_to_id_no_flush,
raygen9.cpp): skip becomes 53; a card folds to its rank
(1 + ((new_card - 1) >> 2)) & 0xF, in 1..13. -/
def fold_no_flush (new_card : Nat) : Nat :=
  if new_card = 0 then 53 else (1 + ((new_card - 1) >>> 2)) &&& 15

/-- add_card_to_id_flush_suits (raygen9.cpp): fold the card to its suit,
append it, and repack.  No pruning. -/
def add_card_to_id_flush_suits (id : Nat) (new_card : Nat) : Nat :=
  pack64 (add_card (fold_flush_suits new_card) (pocketOf id) (boardOf id)).1
    (add_card (fold_flush_suits new_card) (pocketOf id) (boardOf id)).2

/-- add_card_to_id_flush_ranks (raygen9.cpp): fold the card for the given
target suit, reject duplicate suited ranks, append, then prune states that
can no longer reach a flush (fewer than 2 suited board cards on a 4-card
board, fewer than 3 on a 5-card board, or too few suited pocket cards once
the board is full); returns 0 to prune. -/
def add_card_to_id_flush_ranks (id : Nat) (new_card : Nat) (flush_suit : Nat) : Nat :=
  let nc := fold_flush_ranks new_card flush_suit
  if (pocketOf id).any (fun c => decide (c ≠ 1) && decide (c ≠ 53) && decide (c = nc)) then 0
  else if (boardOf id).any (fun c => decide (c ≠ 1) && decide (c ≠ 53) && decide (c = nc)) then 0
  else
    let pb := add_card nc (pocketOf id) (boardOf id)
    let nsp := pb.1.countP (fun c => decide (c ≠ 1) && decide (c ≠ 0))
    let nsb := pb.2.countP (fun c => decide (c ≠ 1) && decide (c ≠ 53) && decide (c ≠ 0))
    if pb.2.length = 4 ∧ nsb ≤ 1 then 0
    else if pb.2.length = 5 ∧ nsb ≤ 2 then 0
    else if pb.2.length = 5 ∧ pb.1.length = 3 ∧ nsp = 0 then 0
    else if pb.2.length = 5 ∧ pb.1.length = 4 ∧ nsp ≤ 1 then 0
    else pack64 pb.1 pb.2

/-- add_card_to_id_flush_ranks_4 (raygen9.cpp): the suit-4 instance used to
build the flush-rank table. -/
def add_card_to_id_flush_ranks_4 (id : Nat) (new_card : Nat) : Nat :=
  add_card_to_id_flush_ranks id new_card 4

/-- add_card_to_id_no_flush (raygen9.cpp): fold the card to its rank,
append it, and reject (return 0) any state in which some rank 1..13 occurs
more than 4 times across pocket and non-skip board cards. -/
def add_card_to_id_no_flush (id : Nat) (new_card : Nat) : Nat :=
  let nc := fold_no_flush new_card
  let pb := add_card nc (pocketOf id) (boardOf id)
  let n_rank : Nat → Nat := fun r =>
    (pocketOf id).count r + (skip_board (boardOf id)).count r +
      (if nc ≠ 53 ∧ nc = r then 1 else 0)
  if (List.range' 1 13).any (fun r => decide (4 < n_rank r)) then 0
  else pack64 pb.1 pb.2

/-- eval_flush_suits (raygen9.cpp): histogram the pocket suits clamped at 2
and the non-skip board suits clamped at 3; return the first suit whose two
clamped counts sum to at least 5, or -1 when there is none. -/
def eval_flush_suits (id : Nat) : Int :=
  if 5 ≤ min ((pocketOf id).count 1) 2 + min ((skip_board (boardOf id)).count 1) 3 then 1
  else if 5 ≤ min ((pocketOf id).count 2) 2 + min ((skip_board (boardOf id)).count 2) 3 then 2
  else if 5 ≤ min ((pocketOf id).count 3) 2 + min ((skip_board (boardOf id)).count 3) 3 then 3
  else if 5 ≤ min ((pocketOf id).count 4) 2 + min ((skip_board (boardOf id)).count 4) 3 then 4
  else -1

/-- Whether the clamped suit histograms of eval_flush_suits report suit s:
min(pocket count, 2) + min(non-skip board count, 3) >= 5. -/
def flush_possible (id : Nat) (s : Nat) : Prop :=
  5 ≤ min ((pocketOf id).count s) 2 + min ((skip_board (boardOf id)).count s) 3

instance (id s : Nat) : Decidable (flush_possible id s) := by
  unfold flush_possible
  infer_instance

/-- map_fs (generate_handranks, raygen9.cpp): the terminal remap for the
flush-suit automaton, sending the "no flush" result -1 to 0. -/
def map_fs (v : Int) : Int := if v = -1 then 0 else v

/-- pocket_perms (raygen9.cpp): the 6 ways to choose 2 of 4 pocket cards. -/
def pocket_perms : List (Nat × Nat) := [(0, 1), (0, 2), (0, 3), (1, 2), (1, 3), (2, 3)]

/-- board_perms (raygen9.cpp): the 10 ways to choose 3 of up to 5 board
cards; the first 1 / 4 / 10 entries are the legal triples for 3- / 4- /
5-card boards. -/
def board_perms : List (Nat × Nat × Nat) :=
  [(0, 1, 2),
   (0, 1, 3), (0, 2, 3), (1, 2, 3),
   (0, 1, 4), (0, 2, 4), (0, 3, 4), (1, 2, 4), (1, 3, 4), (2, 3, 4)]

/-- primes (card_to_cactus, raygen9.cpp): the 13 rank primes of the Cactus
Kev card encoding. -/
def primes : List Nat := [2, 3, 5, 7, 11, 13, 17, 19, 23, 29, 31, 37, 41]

/-- card_to_cactus (raygen9.cpp): Cactus Kev 32-bit encoding of a card with
the given rank 1..13 and suit 1..4 (0 for the zero row and column of the
precomputed table). -/
def card_to_cactus (rank suit : Nat) : Nat :=
  if rank = 0 ∨ suit = 0 then 0
  else primes.getD (rank - 1) 0 |||
    ((rank - 1) <<< 8) ||| (1 <<< (suit + 11)) ||| (1 <<< (16 + (rank - 1)))

/-- eval_cactus_no_flush (raygen9.cpp): score five Cactus Kev cards through
the unique5 table, falling back to the perfect-hash values table.  The
oracle tables live in arrays.h and are passed as functions. -/
def eval_cactus_no_flush (unique5 values : Nat → Int) (cactus_findit : Nat → Nat)
    (c1 c2 c3 c4 c5 : Nat) : Int :=
  let s := unique5 ((c1 ||| c2 ||| c3 ||| c4 ||| c5) >>> 16)
  if s ≠ 0 then s
  else values (cactus_findit ((c1 &&& 255) * (c2 &&& 255) * (c3 &&& 255) *
    (c4 &&& 255) * (c5 &&& 255)))

/-- eval_no_flush (raygen9.cpp): on a full 9-slot ID, re-suit the ranks
round-robin, score every pocket-pair / board-triple choice with the Cactus
Kev oracle and keep the best (smallest) score, mapped through
cactus_to_ray.  With fewer than 4 pocket or 3 non-skip board cards it
prints a diagnostic and returns 0. -/
def eval_no_flush (unique5 values : Nat → Int) (cactus_findit : Nat → Nat)
    (cactus_to_ray : Int → Int) (id : Nat) : Int :=
  let pocket := pocketOf id
  let board := skip_board (boardOf id)
  let n := pocket.length + board.length
  let nbp := if n = 9 then 10 else if n = 8 then 4 else if n = 7 then 1 else 0
  if pocket.length < 4 ∨ board.length < 3 then 0
  else
    let pocketC := (List.range pocket.length).map
      (fun i => card_to_cactus (pocket.getD i 0) (i % 4 + 1))
    let boardC := (List.range board.length).map
      (fun i => card_to_cactus (board.getD i 0) ((pocket.length + i) % 4 + 1))
    let best := (pocket_perms.flatMap
        (fun pp => (board_perms.take nbp).map (fun bp => (pp, bp)))).foldl
      (fun best x =>
        let q := eval_cactus_no_flush unique5 values cactus_findit
          (pocketC.getD x.1.1 0) (pocketC.getD x.1.2 0)
          (boardC.getD x.2.1 0) (boardC.getD x.2.2.1 0) (boardC.getD x.2.2.2 0)
        if q < best then q else best) 8191
    cactus_to_ray best

/-- eval_flush_ranks (raygen9.cpp): on a full 9-slot ID of the flush-rank
automaton, report -1 when a zero or ANY_CARD sentinel sits among the first
two pocket or first three non-skip board slots; otherwise score every
pocket-pair / board-triple choice whose five cards are all suited ranks
through the straight-flush table (flushes, arrays.h) and keep the best,
mapped through cactus_to_ray. -/
def eval_flush_ranks (flushes : Nat → Int) (cactus_to_ray : Int → Int) (id : Nat) : Int :=
  let pocket := pocketOf id
  let board := skip_board (boardOf id)
  if pocket.getD 0 0 = 0 ∨ pocket.getD 1 0 = 0 ∨ board.getD 0 0 = 0 ∨
      board.getD 1 0 = 0 ∨ board.getD 2 0 = 0 then -1
  else if pocket.getD 0 0 = 1 ∨ pocket.getD 1 0 = 1 ∨ board.getD 0 0 = 1 ∨
      board.getD 1 0 = 1 ∨ board.getD 2 0 = 1 then -1
  else
    let n := pocket.length + board.length
    let nbp := if n = 9 then 10 else if n = 8 then 4 else if n = 7 then 1 else 0
    let best := (pocket_perms.flatMap
        (fun pp => (board_perms.take nbp).map (fun bp => (pp, bp)))).foldl
      (fun best x =>
        let rank1 : Int := (pocket.getD x.1.1 0 : Int) - 2
        let rank2 : Int := (pocket.getD x.1.2 0 : Int) - 2
        let rank3 : Int := (board.getD x.2.1 0 : Int) - 2
        let rank4 : Int := (board.getD x.2.2.1 0 : Int) - 2
        let rank5 : Int := (board.getD x.2.2.2 0 : Int) - 2
        if rank1 < 0 ∨ rank2 < 0 ∨ rank3 < 0 ∨ rank4 < 0 ∨ rank5 < 0 ∨
            12 < rank1 ∨ 12 < rank2 ∨ 12 < rank3 ∨ 12 < rank4 ∨ 12 < rank5 then best
        else
          let q := flushes ((1 <<< rank1.toNat) ||| (1 <<< rank2.toNat) |||
            (1 <<< rank3.toNat) ||| (1 <<< rank4.toNat) ||| (1 <<< rank5.toNat))
          if q < best then q else best) 8191
    cactus_to_ray best

/- ### ID enumeration (generate_ids, raygen9.cpp) -/

/-- Remove consecutive duplicates, as std::unique does on the sorted queue
in generate_ids (raygen9.cpp). -/
def dedupAdj : List Nat → List Nat
  | [] => []
  | [a] => [a]
  | a :: b :: rest => if a = b then dedupAdj (b :: rest) else a :: dedupAdj (b :: rest)

/-- min_card rule of generate_ids (raygen9.cpp): the generation producing
n_cards-card IDs starts from card 0 (allowing a board skip) only while
n_cards <= 2. -/
def gen_min_card (n_cards : Nat) : Nat := if n_cards ≤ 2 then 0 else 1

/-- min_card rule of process_ids (raygen9.cpp): an ID with at most one
card accepts card 0 (a board skip); all other IDs start from card 1. -/
def proc_min_card (num_cards : Nat) : Nat := if num_cards ≤ 1 then 0 else 1

/-- One generation of generate_ids (raygen9.cpp): apply the transition to
every queued ID for every allowed card, keep the non-zero results, sort
and drop duplicates. -/
def next_gen (step : Nat → Nat → Nat) (queue : List Nat) (n_cards : Nat) : List Nat :=
  dedupAdj (List.insertionSort (· ≤ ·)
    (queue.flatMap (fun id =>
      (List.range' (gen_min_card n_cards) (53 - gen_min_card n_cards)).filterMap
        (fun c => if step id c = 0 then none else some (step id c)))))

/-- The queue of n-card IDs built by generate_ids (raygen9.cpp), starting
from the single empty ID 0. -/
def gen_queue (step : Nat → Nat → Nat) : Nat → List Nat
  | 0 => [0]
  | n + 1 => next_gen step (gen_queue step n) (n + 1)

/-- generate_ids (raygen9.cpp): the global ID list, 0 followed by the
queues of generations 1..8, sorted at the end. -/
def generate_ids (step : Nat → Nat → Nat) : List Nat :=
  List.insertionSort (· ≤ ·) (0 :: (List.range' 1 8).flatMap (gen_queue step))

/- ### The verifier (test_all_handranks, raygen9.cpp) -/

/-- Inclusive integer range lo..hi, as the C for loops of the verifier. -/
def rangeIncl (lo hi : Nat) : List Nat := List.range' lo (hi + 1 - lo)

/-- min0 (test_all_handranks, raygen9.cpp): lower loop bound of c[0] per
hand size k = 0, 1, 2 (7, 8, 9 cards). -/
def vmin0 : List Nat := [0, 0, 1]

/-- max0 (test_all_handranks, raygen9.cpp): upper loop bound of c[0]. -/
def vmax0 : List Nat := [0, 0, 52]

/-- min1 (test_all_handranks, raygen9.cpp): lower loop bound flag of c[1];
zero means c[1] is pinned to 0, else c[1] runs from c[0] + 1. -/
def vmin1 : List Nat := [0, 1, 1]

/-- max1 (test_all_handranks, raygen9.cpp): upper loop bound of c[1]. -/
def vmax1 : List Nat := [0, 52, 52]

/-- n_board_perms (test_all_handranks, raygen9.cpp): number of legal board
triples per hand size. -/
def v_n_board_perms : List Nat := [1, 4, 10]

/-- The sorted card combinations enumerated by the loop nest of
test_all_handranks (raygen9.cpp) for hand size k = 0, 1, 2: the first
2 - k entries are the leading zeros, the rest is an ascending (7 + k)-card
combination of 1..52. -/
def test_combos (k : Nat) : List (List Nat) :=
  (rangeIncl (vmin0.getD k 0) (vmax0.getD k 0)).flatMap fun c0 =>
  (rangeIncl (if vmin1.getD k 0 = 0 then 0 else c0 + 1) (vmax1.getD k 0)).flatMap fun c1 =>
  (rangeIncl (c1 + 1) 52).flatMap fun c2 =>
  (rangeIncl (c2 + 1) 52).flatMap fun c3 =>
  (rangeIncl (c3 + 1) 52).flatMap fun c4 =>
  (rangeIncl (c4 + 1) 52).flatMap fun c5 =>
  (rangeIncl (c5 + 1) 52).flatMap fun c6 =>
  (rangeIncl (c6 + 1) 52).flatMap fun c7 =>
  (rangeIncl (c7 + 1) 52).map fun c8 => [c0, c1, c2, c3, c4, c5, c6, c7, c8]

/-- Nine chained indexings into a hand-ranks table starting from the given
offset, one per card, as in section 4.6 of the specification and the fs / 
snf chains of test_all_handranks (raygen9.cpp). -/
def chain9 (HR : Int → Int) (start : Int) (c : List Nat) : Int :=
  c.foldl (fun s ci => HR (s + (ci : Int))) start

/-- The new-table score of one combination in test_all_handranks
(raygen9.cpp): the flush-suit chain from 106, the no-flush chain from
HR[0] + 53, and, when the flush suit is non-zero, the max with the
flush-rank chain from HR[1] + 56 through the pointer shifted by
4 - flush_suit. -/
def score_new (HRn : Int → Int) (c : List Nat) : Int :=
  let fs := chain9 HRn 106 c
  let snf := chain9 HRn (HRn 0 + 53) c
  if fs ≠ 0 then max snf (chain9 (fun x => HRn (x + (4 - fs))) (HRn 1 + 56) c) else snf

/-- board_paths (test_all_handranks, raygen9.cpp): the reference 7-card
table walked over one board triple, whose cards sit at offsets (2 - k) +
board_perms[nb] of the combination. -/
def board_path (HRo : Int → Int) (k : Nat) (c : List Nat) (bp : Nat × Nat × Nat) : Int :=
  HRo (HRo (HRo (53 + (c.getD ((2 - k) + bp.1) 0 : Int)) +
    (c.getD ((2 - k) + bp.2.1) 0 : Int)) + (c.getD ((2 - k) + bp.2.2) 0 : Int))

/-- score_old (test_all_handranks, raygen9.cpp): the reference score, the
maximum over the 6 pocket pairs and the 1 / 4 / 10 board triples of the
7-card reference chain, seeded with 0. -/
def score_old (HRo : Int → Int) (k : Nat) (c : List Nat) : Int :=
  (pocket_perms.flatMap
      (fun pp => (board_perms.take (v_n_board_perms.getD k 0)).map (fun bp => (pp, bp)))).foldl
    (fun s x => max s (HRo (HRo (HRo (board_path HRo k c x.2 + (c.getD (5 + x.1.1) 0 : Int)) +
      (c.getD (5 + x.1.2) 0 : Int))))) 0

/-- The first combination, in loop order, on which the new table and the
reference table disagree in test_all_handranks (raygen9.cpp). -/
def first_mismatch (HRn HRo : Int → Int) : Option (Nat × List Nat) :=
  ((List.range 3).flatMap (fun k => (test_combos k).map (fun c => (k, c)))).find?
    (fun kc => decide (score_new HRn kc.2 ≠ score_old HRo kc.1 kc.2))

/-- test_all_handranks (raygen9.cpp): walk all combinations of all three
hand sizes in loop order; return 1 (goto fail) at the first mismatch and 0
after all combinations verify. -/
def test_all_handranks (HRn HRo : Int → Int) : Int :=
  match first_mismatch HRn HRo with
  | none => 0
  | some _ => 1

/- ### Counting cards through pack64 and add_card -/

theorem length_slots9 (id : Nat) : (slots9 id).length = 9 := by
  simp [slots9]

theorem slots9_lt (id : Nat) : ∀ x ∈ slots9 id, x < 128 := by
  intro x hx
  obtain ⟨i, _, rfl⟩ := List.mem_map.1 hx
  exact getSlot_lt id i

theorem mem_boardOf_ne_zero {id x : Nat} (h : x ∈ boardOf id) : x ≠ 0 := by
  have h2 := (List.mem_filter.1 h).2
  simpa using h2

theorem mem_boardOf_lt {id x : Nat} (h : x ∈ boardOf id) : x < 128 := by
  have h2 := (List.mem_filter.1 h).1
  exact slots9_lt id x (List.mem_of_mem_take h2)

theorem mem_pocketOf_ne_zero {id x : Nat} (h : x ∈ pocketOf id) : x ≠ 0 := by
  have h2 := (List.mem_filter.1 h).2
  simpa using h2

theorem mem_pocketOf_lt {id x : Nat} (h : x ∈ pocketOf id) : x < 128 := by
  have h2 := (List.mem_filter.1 h).1
  exact slots9_lt id x (List.mem_of_mem_drop h2)

theorem length_boardOf_le (id : Nat) : (boardOf id).length ≤ 5 := by
  unfold boardOf
  calc (((slots9 id).take 5).filter (fun c => decide (c ≠ 0))).length
      ≤ ((slots9 id).take 5).length := List.length_filter_le _ _
    _ ≤ 5 := by rw [List.length_take, length_slots9]; omega

theorem length_pocketOf_le (id : Nat) : (pocketOf id).length ≤ 4 := by
  unfold pocketOf
  calc (((slots9 id).drop 5).filter (fun c => decide (c ≠ 0))).length
      ≤ ((slots9 id).drop 5).length := List.length_filter_le _ _
    _ = 4 := by rw [List.length_drop, length_slots9]

theorem count_cards_split (id : Nat) :
    count_cards id = (boardOf id).length + (pocketOf id).length := by
  unfold count_cards boardOf pocketOf
  rw [← List.countP_eq_length_filter, ← List.countP_eq_length_filter]
  conv_lhs => rw [← List.take_append_drop 5 (slots9 id)]
  rw [List.countP_append]

theorem countP_ne_zero_eq_length {l : List Nat} (h : ∀ x ∈ l, x ≠ 0) :
    l.countP (fun c => decide (c ≠ 0)) = l.length := by
  apply List.countP_eq_length.2
  intro a ha
  simpa using h a ha

theorem count_cards_pack64 (pocket board : List Nat)
    (hp : ∀ x ∈ pocket, x < 128) (hb : ∀ x ∈ board, x < 128)
    (hpl : pocket.length ≤ 4) (hbl : board.length ≤ 5) :
    count_cards (pack64 pocket board) =
      board.countP (fun c => decide (c ≠ 0)) + pocket.countP (fun c => decide (c ≠ 0)) := by
  unfold count_cards
  rw [slots9_pack64 pocket board hp hb hpl hbl, List.countP_append]
  rw [countP_sortDesc, countP_sortDesc, countP_padTo _ _ _ (by simp), countP_padTo _ _ _ (by simp)]

theorem fromSlots_eq_zero {l : List Nat} : fromSlots l = 0 ↔ ∀ x ∈ l, x = 0 := by
  induction l with
  | nil => simp [fromSlots]
  | cons x xs ih =>
    simp only [fromSlots, List.mem_cons]
    constructor
    · intro h
      have hx : x = 0 := by omega
      have hxs : fromSlots xs = 0 := by omega
      intro y hy
      rcases hy with rfl | hy
      · exact hx
      · exact ih.1 hxs y hy
    · intro h
      have hx : x = 0 := h x (Or.inl rfl)
      have hxs : fromSlots xs = 0 := ih.2 (fun y hy => h y (Or.inr hy))
      omega

theorem pack64_ne_zero (pocket board : List Nat) {x : Nat}
    (hx : x ∈ pocket ∨ x ∈ board) (hxne : x ≠ 0) : pack64 pocket board ≠ 0 := by
  intro h0
  apply hxne
  refine fromSlots_eq_zero.1 h0 x ?_
  rcases hx with h | h
  · exact List.mem_append.2 (Or.inr (mem_sortDesc.2 (subset_padTo _ _ h)))
  · exact List.mem_append.2 (Or.inl (mem_sortDesc.2 (subset_padTo _ _ h)))

/-- Adding one non-zero card below 128 to an ID with at most 8 cards and
repacking increases the card count by exactly one. -/
theorem count_cards_add_pack (id nc : Nat) (hnc : nc ≠ 0) (hlt : nc < 128)
    (h8 : count_cards id ≤ 8) :
    count_cards (pack64 (add_card nc (pocketOf id) (boardOf id)).1
      (add_card nc (pocketOf id) (boardOf id)).2) = count_cards id + 1 := by
  have hsplit := count_cards_split id
  have hbl := length_boardOf_le id
  have hpl := length_pocketOf_le id
  unfold add_card
  by_cases hb5 : (boardOf id).length < 5
  · simp only [if_pos hb5]
    rw [count_cards_pack64 (pocketOf id) (boardOf id ++ [nc])
      (fun x hx => mem_pocketOf_lt hx)
      (fun x hx => by
        rcases List.mem_append.1 hx with h | h
        · exact mem_boardOf_lt h
        · simp at h
          omega)
      hpl (by rw [List.length_append]; simp; omega)]
    rw [List.countP_append,
      countP_ne_zero_eq_length (fun x hx => mem_boardOf_ne_zero hx),
      countP_ne_zero_eq_length (fun x hx => mem_pocketOf_ne_zero hx)]
    have hone : ([nc] : List Nat).countP (fun c => decide (c ≠ 0)) = 1 := by
      simp [List.countP_cons, hnc]
    omega
  · have hb5e : (boardOf id).length = 5 := by omega
    have hple : (pocketOf id).length ≤ 3 := by omega
    simp only [if_neg hb5]
    rw [count_cards_pack64 (pocketOf id ++ [nc]) (boardOf id)
      (fun x hx => by
        rcases List.mem_append.1 hx with h | h
        · exact mem_pocketOf_lt h
        · simp at h
          omega)
      (fun x hx => mem_boardOf_lt hx)
      (by rw [List.length_append]; simp; omega) hbl]
    rw [List.countP_append,
      countP_ne_zero_eq_length (fun x hx => mem_boardOf_ne_zero hx),
      countP_ne_zero_eq_length (fun x hx => mem_pocketOf_ne_zero hx)]
    have hone : ([nc] : List Nat).countP (fun c => decide (c ≠ 0)) = 1 := by
      simp [List.countP_cons, hnc]
    omega

/- ### Folded card values and transition shapes -/

theorem fold_flush_suits_facts : ∀ c : Nat, c < 53 →
    fold_flush_suits c ≠ 0 ∧ fold_flush_suits c ≤ 53 ∧
    (c ≠ 0 → fold_flush_suits c ≠ 53) ∧ (c = 0 → fold_flush_suits c = 53) := by
  decide

theorem fold_no_flush_facts : ∀ c : Nat, c < 53 →
    fold_no_flush c ≠ 0 ∧ fold_no_flush c ≤ 53 ∧
    (c ≠ 0 → fold_no_flush c ≠ 53) ∧ (c = 0 → fold_no_flush c = 53) := by
  decide

theorem fr_suited_bounds : ∀ c : Nat, c < 53 → c ≠ 0 →
    2 ≤ (2 + ((c - 1) >>> 2)) &&& 15 ∧ (2 + ((c - 1) >>> 2)) &&& 15 ≤ 14 := by
  decide

theorem fold_flush_ranks_facts (s : Nat) : ∀ c : Nat, c < 53 →
    fold_flush_ranks c s ≠ 0 ∧ fold_flush_ranks c s ≤ 53 ∧
    (c ≠ 0 → fold_flush_ranks c s ≠ 53) ∧ (c = 0 → fold_flush_ranks c s = 53) := by
  intro c hc
  by_cases h0 : c = 0
  · subst h0
    simp [fold_flush_ranks]
  · have hb := fr_suited_bounds c hc h0
    by_cases hs : ((c - 1) &&& 3) + 1 = s
    · unfold fold_flush_ranks
      rw [if_neg h0, if_pos hs]
      exact ⟨by omega, by omega, fun _ => by omega, fun hcc => absurd hcc h0⟩
    · unfold fold_flush_ranks
      rw [if_neg h0, if_neg hs]
      exact ⟨by omega, by omega, fun _ => by omega, fun hcc => absurd hcc h0⟩

theorem shape_flush_ranks {id c s : Nat} (hnz : add_card_to_id_flush_ranks id c s ≠ 0) :
    add_card_to_id_flush_ranks id c s =
      pack64 (add_card (fold_flush_ranks c s) (pocketOf id) (boardOf id)).1
        (add_card (fold_flush_ranks c s) (pocketOf id) (boardOf id)).2 := by
  simp only [add_card_to_id_flush_ranks] at hnz ⊢
  split_ifs at hnz ⊢ <;> first | rfl | exact absurd rfl hnz

theorem shape_no_flush {id c : Nat} (hnz : add_card_to_id_no_flush id c ≠ 0) :
    add_card_to_id_no_flush id c =
      pack64 (add_card (fold_no_flush c) (pocketOf id) (boardOf id)).1
        (add_card (fold_no_flush c) (pocketOf id) (boardOf id)).2 := by
  simp only [add_card_to_id_no_flush] at hnz ⊢
  split_ifs at hnz ⊢ <;> first | rfl | exact absurd rfl hnz

theorem count_step_flush_suits (id c : Nat) (hc : c ≤ 52) (h8 : count_cards id ≤ 8) :
    count_cards (add_card_to_id_flush_suits id c) = count_cards id + 1 := by
  have hf := fold_flush_suits_facts c (by omega)
  unfold add_card_to_id_flush_suits
  exact count_cards_add_pack id (fold_flush_suits c) hf.1 (by omega) h8

theorem count_step_flush_ranks (id c s : Nat) (hc : c ≤ 52) (h8 : count_cards id ≤ 8)
    (hnz : add_card_to_id_flush_ranks id c s ≠ 0) :
    count_cards (add_card_to_id_flush_ranks id c s) = count_cards id + 1 := by
  have hf := fold_flush_ranks_facts s c (by omega)
  rw [shape_flush_ranks hnz]
  exact count_cards_add_pack id (fold_flush_ranks c s) hf.1 (by omega) h8

theorem count_step_no_flush (id c : Nat) (hc : c ≤ 52) (h8 : count_cards id ≤ 8)
    (hnz : add_card_to_id_no_flush id c ≠ 0) :
    count_cards (add_card_to_id_no_flush id c) = count_cards id + 1 := by
  have hf := fold_no_flush_facts c (by omega)
  rw [shape_no_flush hnz]
  exact count_cards_add_pack id (fold_no_flush c) hf.1 (by omega) h8

/- ### Membership and shape of the BFS enumeration -/

theorem mem_dedupAdj {x : Nat} : ∀ {l : List Nat}, x ∈ dedupAdj l ↔ x ∈ l := by
  intro l
  induction l with
  | nil => simp [dedupAdj]
  | cons a t ih =>
    cases t with
    | nil => simp [dedupAdj]
    | cons b r =>
      by_cases hab : a = b
      · subst hab
        have he : dedupAdj (a :: a :: r) = dedupAdj (a :: r) := by
          simp [dedupAdj]
        rw [he, ih]
        simp
      · simp only [dedupAdj, if_neg hab, List.mem_cons]
        rw [ih]
        simp

theorem dedupAdj_nodup : ∀ {l : List Nat}, List.Sorted (· ≤ ·) l → (dedupAdj l).Nodup := by
  intro l
  induction l with
  | nil => intro _; simp [dedupAdj]
  | cons a t ih =>
    cases t with
    | nil => intro _; simp [dedupAdj]
    | cons b r =>
      intro hs
      have hs2 : List.Sorted (· ≤ ·) (b :: r) := hs.of_cons
      by_cases hab : a = b
      · simp only [dedupAdj, if_pos hab]
        exact ih hs2
      · simp only [dedupAdj, if_neg hab]
        refine List.nodup_cons.2 ⟨?_, ih hs2⟩
        intro hmem
        rcases List.mem_cons.1 (mem_dedupAdj.1 hmem) with rfl | hr
        · exact hab rfl
        · have h1 : a ≤ b := (List.sorted_cons.1 hs).1 b (by simp)
          have h2 : b ≤ a := (List.sorted_cons.1 hs2).1 a hr
          exact hab (le_antisymm h1 h2)

theorem gen_min_card_le_one (n : Nat) : gen_min_card n ≤ 1 := by
  unfold gen_min_card
  split <;> omega

theorem mem_next_gen {step : Nat → Nat → Nat} {queue : List Nat} {n_cards id c : Nat}
    (hq : id ∈ queue) (hc1 : gen_min_card n_cards ≤ c) (hc2 : c ≤ 52)
    (hnz : step id c ≠ 0) : step id c ∈ next_gen step queue n_cards := by
  unfold next_gen
  rw [mem_dedupAdj, (List.perm_insertionSort _ _).mem_iff]
  refine List.mem_flatMap.2 ⟨id, hq, ?_⟩
  refine List.mem_filterMap.2 ⟨c, ?_, ?_⟩
  · rw [List.mem_range'_1]
    have := gen_min_card_le_one n_cards
    omega
  · rw [if_neg hnz]

theorem mem_next_gen_elim {step : Nat → Nat → Nat} {queue : List Nat} {n_cards id : Nat}
    (h : id ∈ next_gen step queue n_cards) :
    ∃ prev ∈ queue, ∃ c, gen_min_card n_cards ≤ c ∧ c ≤ 52 ∧ step prev c = id ∧ id ≠ 0 := by
  unfold next_gen at h
  rw [mem_dedupAdj, (List.perm_insertionSort _ _).mem_iff] at h
  obtain ⟨prev, hprev, hmem⟩ := List.mem_flatMap.1 h
  obtain ⟨c, hc, heq⟩ := List.mem_filterMap.1 hmem
  rw [List.mem_range'_1] at hc
  by_cases hz : step prev c = 0
  · rw [if_pos hz] at heq
    exact absurd heq (by simp)
  · rw [if_neg hz] at heq
    have heq2 := Option.some.inj heq
    have := gen_min_card_le_one n_cards
    refine ⟨prev, hprev, c, hc.1, by omega, heq2, ?_⟩
    rw [← heq2]
    exact hz

theorem gen_queue_count (step : Nat → Nat → Nat)
    (hstep : ∀ id c, c ≤ 52 → count_cards id ≤ 8 → step id c ≠ 0 →
      count_cards (step id c) = count_cards id + 1) :
    ∀ n, n ≤ 8 → ∀ id ∈ gen_queue step n, count_cards id = n := by
  intro n
  induction n with
  | zero =>
    intro _ id hid
    simp only [gen_queue, List.mem_singleton] at hid
    subst hid
    decide
  | succ m ih =>
    intro hm id hid
    have hid2 : id ∈ next_gen step (gen_queue step m) (m + 1) := hid
    obtain ⟨prev, hprev, c, hc1, hc2, heq, hnz⟩ := mem_next_gen_elim hid2
    have hprevc := ih (by omega) prev hprev
    have hnz2 : step prev c ≠ 0 := by
      rw [heq]
      exact hnz
    rw [← heq, hstep prev c hc2 (by omega) hnz2]
    omega

theorem mem_generate_ids {step : Nat → Nat → Nat} {id n : Nat} (h1 : 1 ≤ n) (h2 : n ≤ 8)
    (h : id ∈ gen_queue step n) : id ∈ generate_ids step := by
  unfold generate_ids
  rw [(List.perm_insertionSort _ _).mem_iff]
  refine List.mem_cons.2 (Or.inr ?_)
  refine List.mem_flatMap.2 ⟨n, ?_, h⟩
  rw [List.mem_range'_1]
  omega

theorem zero_mem_generate_ids (step : Nat → Nat → Nat) : (0 : Nat) ∈ generate_ids step := by
  unfold generate_ids
  rw [(List.perm_insertionSort _ _).mem_iff]
  exact List.mem_cons_self _ _

theorem mem_generate_ids_elim {step : Nat → Nat → Nat} {id : Nat}
    (h : id ∈ generate_ids step) :
    id = 0 ∨ ∃ n, 1 ≤ n ∧ n ≤ 8 ∧ id ∈ gen_queue step n := by
  unfold generate_ids at h
  rw [(List.perm_insertionSort _ _).mem_iff] at h
  rcases List.mem_cons.1 h with h0 | hmem
  · exact Or.inl h0
  · obtain ⟨n, hn, hq⟩ := List.mem_flatMap.1 hmem
    rw [List.mem_range'_1] at hn
    exact Or.inr ⟨n, by omega, by omega, hq⟩

theorem generate_ids_sorted_lt (step : Nat → Nat → Nat)
    (hstep : ∀ id c, c ≤ 52 → count_cards id ≤ 8 → step id c ≠ 0 →
      count_cards (step id c) = count_cards id + 1) :
    List.Sorted (· < ·) (generate_ids step) := by
  have hle : List.Sorted (· ≤ ·) (generate_ids step) := List.sorted_insertionSort _ _
  have hcount := gen_queue_count step hstep
  have hnd : (generate_ids step).Nodup := by
    unfold generate_ids
    rw [(List.perm_insertionSort _ _).nodup_iff]
    refine List.nodup_cons.2 ⟨?_, ?_⟩
    · intro h
      obtain ⟨n, hn, hmem⟩ := List.mem_flatMap.1 h
      rw [List.mem_range'_1] at hn
      have hc := hcount n (by omega) 0 hmem
      have h0 : count_cards 0 = 0 := by decide
      omega
    · refine List.nodup_flatMap.2 ⟨?_, ?_⟩
      · intro n hn
        rw [List.mem_range'_1] at hn
        obtain ⟨m, rfl⟩ : ∃ m, n = m + 1 := ⟨n - 1, by omega⟩
        exact dedupAdj_nodup (List.sorted_insertionSort _ _)
      · refine List.Pairwise.imp_of_mem ?_ (List.pairwise_lt_range' 1 8 1)
        intro a b ha hb hab x hxa hxb
        rw [List.mem_range'_1] at ha hb
        have hca := hcount a (by omega) x hxa
        have hcb := hcount b (by omega) x hxb
        omega
  exact (hle.and hnd).imp (fun h => lt_of_le_of_ne h.1 h.2)

/- ### Skip sentinels in enumerated IDs -/

theorem mem_packed_group {x : Nat} {l : List Nat} {n : Nat} (hx : x ≠ 0) :
    x ∈ (sortDesc (padTo l n)).filter (fun c => decide (c ≠ 0)) ↔ x ∈ l := by
  rw [List.mem_filter]
  constructor
  · intro h
    rcases mem_padTo (mem_sortDesc.1 h.1) with h2 | h2
    · exact h2
    · omega
  · intro h
    exact ⟨mem_sortDesc.2 (subset_padTo _ _ h), by simpa using hx⟩

theorem count_packed_group (v : Nat) (l : List Nat) (n : Nat) (hv : v ≠ 0) :
    ((sortDesc (padTo l n)).filter (fun c => decide (c ≠ 0))).count v = l.count v := by
  rw [List.count_filter (by simpa using hv)]
  rw [(sortDesc_perm _).count_eq v, padTo, List.count_append, List.count_replicate]
  have hzv : ((0 : Nat) == v) = false := by
    simp
    omega
  rw [hzv]
  simp

theorem sorted_desc_getD_ne {l : List Nat} (hs : List.Sorted (fun a b => b ≤ a) l)
    (hb : ∀ x ∈ l, x ≤ 53) (hc : l.count 53 ≤ 2) :
    ∀ j, 2 ≤ j → l.getD j 0 ≠ 53 := by
  intro j hj hcontra
  by_cases hlen : j < l.length
  · rw [List.getD_eq_getElem l 0 hlen] at hcontra
    have hall : ∀ i, i ≤ j → ∀ hi : i < l.length, l[i] = 53 := by
      intro i hij hi
      by_cases hieq : i = j
      · subst hieq
        exact hcontra
      · have hlt : (⟨i, hi⟩ : Fin l.length) < ⟨j, hlen⟩ := by
          simp [Fin.lt_def]
          omega
        have hrel := hs.rel_get_of_lt hlt
        have hle53 := hb l[i] (l.get_mem i hi)
        simp only [List.get_eq_getElem] at hrel
        rw [hcontra] at hrel
        omega
    have htake : (l.take (j + 1)).count 53 = j + 1 := by
      have hlen2 : (l.take (j + 1)).length = j + 1 := by
        rw [List.length_take]
        omega
      have hcl : (l.take (j + 1)).count 53 = (l.take (j + 1)).length :=
        List.count_eq_length.2 ?_
      · rw [hcl, hlen2]
      intro b hbmem
      obtain ⟨i, hi, hbi⟩ := List.mem_iff_getElem.1 hbmem
      rw [List.getElem_take] at hbi
      have hij : i ≤ j := by
        rw [List.length_take] at hi
        omega
      rw [← hbi]
      exact (hall i hij _).symm
    have hsplit : (l.take (j + 1)).count 53 + (l.drop (j + 1)).count 53 = l.count 53 := by
      rw [← List.count_append, List.take_append_drop]
    omega
  · rw [List.getD_eq_default l 0 (by omega)] at hcontra
    omega

/-- The BFS invariant on skip sentinels: no enumerated ID ever has a 53 in
its pocket slots, and the board carries at most two (at most n after
generation n), the board stays descending and all cards stay below 54. -/
theorem gen_queue_skip (step : Nat → Nat → Nat) (fold : Nat → Nat)
    (hshape : ∀ id c, step id c ≠ 0 → step id c =
      pack64 (add_card (fold c) (pocketOf id) (boardOf id)).1
        (add_card (fold c) (pocketOf id) (boardOf id)).2)
    (hfold : ∀ c, c < 53 → fold c ≠ 0 ∧ fold c ≤ 53 ∧ (c ≠ 0 → fold c ≠ 53))
    (hstep : ∀ id c, c ≤ 52 → count_cards id ≤ 8 → step id c ≠ 0 →
      count_cards (step id c) = count_cards id + 1) :
    ∀ n, n ≤ 8 → ∀ id ∈ gen_queue step n,
      53 ∉ pocketOf id ∧ (boardOf id).count 53 ≤ min n 2 ∧
      (∀ x ∈ pocketOf id, x ≤ 53) ∧ (∀ x ∈ boardOf id, x ≤ 53) ∧
      List.Sorted (fun a b => b ≤ a) (boardOf id) := by
  intro n
  induction n with
  | zero =>
    intro _ id hid
    simp only [gen_queue, List.mem_singleton] at hid
    subst hid
    refine ⟨by decide, by decide, by decide, by decide, ?_⟩
    have h0 : boardOf 0 = [] := by decide
    rw [h0]
    exact List.sorted_nil
  | succ m ih =>
    intro hm id hid
    have hid2 : id ∈ next_gen step (gen_queue step m) (m + 1) := hid
    obtain ⟨prev, hprev, c, hc1, hc2, heq, hnz⟩ := mem_next_gen_elim hid2
    have hnz2 : step prev c ≠ 0 := by
      rw [heq]
      exact hnz
    have hcount := gen_queue_count step hstep m (by omega) prev hprev
    obtain ⟨hp53, hb53, hple53, hble53, _⟩ := ih (by omega) prev hprev
    have hsplit := count_cards_split prev
    have hbl := length_boardOf_le prev
    have hpl := length_pocketOf_le prev
    have hf := hfold c (by omega)
    have hplt : ∀ x ∈ pocketOf prev, x < 128 := fun x hx => mem_pocketOf_lt hx
    have hblt : ∀ x ∈ boardOf prev, x < 128 := fun x hx => mem_boardOf_lt hx
    rw [← heq, hshape prev c hnz2]
    by_cases hb5 : (boardOf prev).length < 5
    · have hadd : add_card (fold c) (pocketOf prev) (boardOf prev) =
          (pocketOf prev, boardOf prev ++ [fold c]) := by
        unfold add_card
        rw [if_pos hb5]
      rw [hadd]
      have hblt2 : ∀ x ∈ boardOf prev ++ [fold c], x < 128 := by
        intro x hx
        rcases List.mem_append.1 hx with h | h
        · exact hblt x h
        · simp at h
          omega
      have hbl2 : (boardOf prev ++ [fold c]).length ≤ 5 := by
        rw [List.length_append]
        simp
        omega
      rw [boardOf_pack64 _ _ hplt hblt2 hpl hbl2, pocketOf_pack64 _ _ hplt hblt2 hpl hbl2]
      refine ⟨?_, ?_, ?_, ?_, ?_⟩
      · intro hmem
        exact hp53 ((mem_packed_group (by omega)).1 hmem)
      · rw [count_packed_group 53 _ _ (by omega), List.count_append]
        have hc53 : ([fold c] : List Nat).count 53 ≤ 1 := by
          rcases List.count_le_length 53 [fold c] with h
          simpa using h
        by_cases hc0 : c = 0
        · have : gen_min_card (m + 1) = 0 := by
            subst hc0
            omega
          have hm1 : m + 1 ≤ 2 := by
            unfold gen_min_card at this
            by_cases h2 : m + 1 ≤ 2
            · exact h2
            · rw [if_neg h2] at this
              omega
          omega
        · have hne53 := hf.2.2 hc0
          have : ([fold c] : List Nat).count 53 = 0 := by
            simp [List.count_cons, hne53]
          omega
      · intro x hx
        have hx0 : x ≠ 0 := by
          have := (List.mem_filter.1 hx).2
          simpa using this
        exact hple53 x ((mem_packed_group hx0).1 hx)
      · intro x hx
        have hx0 : x ≠ 0 := by
          have := (List.mem_filter.1 hx).2
          simpa using this
        rcases List.mem_append.1 ((mem_packed_group hx0).1 hx) with h | h
        · exact hble53 x h
        · simp at h
          omega
      · exact List.Pairwise.filter _ (sortDesc_sorted _)
    · have hb5e : (boardOf prev).length = 5 := by omega
      have hcne : c ≠ 0 := by
        intro hc0
        subst hc0
        have hgm : gen_min_card (m + 1) = 0 := by omega
        have hm1 : m + 1 ≤ 2 := by
          unfold gen_min_card at hgm
          by_cases h2 : m + 1 ≤ 2
          · exact h2
          · rw [if_neg h2] at hgm
            omega
        omega
      have hne53 := hf.2.2 hcne
      have hadd : add_card (fold c) (pocketOf prev) (boardOf prev) =
          (pocketOf prev ++ [fold c], boardOf prev) := by
        unfold add_card
        rw [if_neg hb5]
      rw [hadd]
      have hplt2 : ∀ x ∈ pocketOf prev ++ [fold c], x < 128 := by
        intro x hx
        rcases List.mem_append.1 hx with h | h
        · exact hplt x h
        · simp at h
          omega
      have hpl2 : (pocketOf prev ++ [fold c]).length ≤ 4 := by
        rw [List.length_append]
        simp
        omega
      rw [boardOf_pack64 _ _ hplt2 hblt hpl2 hbl, pocketOf_pack64 _ _ hplt2 hblt hpl2 hbl]
      refine ⟨?_, ?_, ?_, ?_, ?_⟩
      · intro hmem
        rcases List.mem_append.1 ((mem_packed_group (by omega)).1 hmem) with h | h
        · exact hp53 h
        · simp at h
          omega
      · rw [count_packed_group 53 _ _ (by omega)]
        omega
      · intro x hx
        have hx0 : x ≠ 0 := by
          have := (List.mem_filter.1 hx).2
          simpa using this
        rcases List.mem_append.1 ((mem_packed_group hx0).1 hx) with h | h
        · exact hple53 x h
        · simp at h
          omega
      · intro x hx
        have hx0 : x ≠ 0 := by
          have := (List.mem_filter.1 hx).2
          simpa using this
        exact hble53 x ((mem_packed_group hx0).1 hx)
      · exact List.Pairwise.filter _ (sortDesc_sorted _)

/- ### Instantiations of the generic BFS lemmas for the three automata -/

theorem shape_flush_suits (id c : Nat) :
    add_card_to_id_flush_suits id c =
      pack64 (add_card (fold_flush_suits c) (pocketOf id) (boardOf id)).1
        (add_card (fold_flush_suits c) (pocketOf id) (boardOf id)).2 := rfl

theorem hstep_flush_suits : ∀ id c, c ≤ 52 → count_cards id ≤ 8 →
    add_card_to_id_flush_suits id c ≠ 0 →
    count_cards (add_card_to_id_flush_suits id c) = count_cards id + 1 :=
  fun id c hc h8 _ => count_step_flush_suits id c hc h8

theorem hstep_flush_ranks_4 : ∀ id c, c ≤ 52 → count_cards id ≤ 8 →
    add_card_to_id_flush_ranks_4 id c ≠ 0 →
    count_cards (add_card_to_id_flush_ranks_4 id c) = count_cards id + 1 :=
  fun id c hc h8 h => count_step_flush_ranks id c 4 hc h8 h

theorem hstep_no_flush : ∀ id c, c ≤ 52 → count_cards id ≤ 8 →
    add_card_to_id_no_flush id c ≠ 0 →
    count_cards (add_card_to_id_no_flush id c) = count_cards id + 1 :=
  fun id c hc h8 h => count_step_no_flush id c hc h8 h

theorem hfold_flush_suits : ∀ c, c < 53 → fold_flush_suits c ≠ 0 ∧
    fold_flush_suits c ≤ 53 ∧ (c ≠ 0 → fold_flush_suits c ≠ 53) :=
  fun c hc => ⟨(fold_flush_suits_facts c hc).1, (fold_flush_suits_facts c hc).2.1,
    (fold_flush_suits_facts c hc).2.2.1⟩

theorem hfold_flush_ranks_4 : ∀ c, c < 53 → fold_flush_ranks c 4 ≠ 0 ∧
    fold_flush_ranks c 4 ≤ 53 ∧ (c ≠ 0 → fold_flush_ranks c 4 ≠ 53) :=
  fun c hc => ⟨(fold_flush_ranks_facts 4 c hc).1, (fold_flush_ranks_facts 4 c hc).2.1,
    (fold_flush_ranks_facts 4 c hc).2.2.1⟩

theorem hfold_no_flush : ∀ c, c < 53 → fold_no_flush c ≠ 0 ∧
    fold_no_flush c ≤ 53 ∧ (c ≠ 0 → fold_no_flush c ≠ 53) :=
  fun c hc => ⟨(fold_no_flush_facts c hc).1, (fold_no_flush_facts c hc).2.1,
    (fold_no_flush_facts c hc).2.2.1⟩

theorem hshape_flush_suits : ∀ id c, add_card_to_id_flush_suits id c ≠ 0 →
    add_card_to_id_flush_suits id c =
      pack64 (add_card (fold_flush_suits c) (pocketOf id) (boardOf id)).1
        (add_card (fold_flush_suits c) (pocketOf id) (boardOf id)).2 :=
  fun id c _ => shape_flush_suits id c

theorem hshape_flush_ranks_4 : ∀ id c, add_card_to_id_flush_ranks_4 id c ≠ 0 →
    add_card_to_id_flush_ranks_4 id c =
      pack64 (add_card (fold_flush_ranks c 4) (pocketOf id) (boardOf id)).1
        (add_card (fold_flush_ranks c 4) (pocketOf id) (boardOf id)).2 :=
  fun id c h => shape_flush_ranks h

theorem hshape_no_flush : ∀ id c, add_card_to_id_no_flush id c ≠ 0 →
    add_card_to_id_no_flush id c =
      pack64 (add_card (fold_no_flush c) (pocketOf id) (boardOf id)).1
        (add_card (fold_no_flush c) (pocketOf id) (boardOf id)).2 :=
  fun id c h => shape_no_flush h

/- ### Claim theorems -/

theorem padTo_self (l : List Nat) (n : Nat) (h : l.length = n) : padTo l n = l := by
  unfold padTo
  rw [h, Nat.sub_self]
  simp

/-- C8: for every pocket array of 4 and board array of 5 card values in
0..53 with no duplicate non-zero real cards, unpack64 applied to
pack64(pocket, board) returns the same multisets: a descending-sorted
permutation of the board values in the low five slots and of the pocket
values in the high four slots, with zero slots not counted in n_pocket or
n_board (the returned lengths). -/
theorem claim_C8_pack_unpack (pocket board : List Nat)
    (hpl : pocket.length = 4) (hbl : board.length = 5)
    (hp : ∀ x ∈ pocket, x ≤ 53) (hb : ∀ x ∈ board, x ≤ 53)
    (hnd : ((pocket ++ board).filter (fun c => decide (1 ≤ c ∧ c ≤ 52))).Nodup) :
    List.Sorted (fun a b => b ≤ a) (unpack64 (pack64 pocket board)).2 ∧
    (unpack64 (pack64 pocket board)).2.Perm (board.filter (fun c => decide (c ≠ 0))) ∧
    (unpack64 (pack64 pocket board)).2.length =
      (board.filter (fun c => decide (c ≠ 0))).length ∧
    List.Sorted (fun a b => b ≤ a) (unpack64 (pack64 pocket board)).1 ∧
    (unpack64 (pack64 pocket board)).1.Perm (pocket.filter (fun c => decide (c ≠ 0))) ∧
    (unpack64 (pack64 pocket board)).1.length =
      (pocket.filter (fun c => decide (c ≠ 0))).length := by
  have hplt : ∀ x ∈ pocket, x < 128 := by
    intro x hx
    have := hp x hx
    omega
  have hblt : ∀ x ∈ board, x < 128 := by
    intro x hx
    have := hb x hx
    omega
  have hbeq : (unpack64 (pack64 pocket board)).2 =
      (sortDesc board).filter (fun c => decide (c ≠ 0)) := by
    show boardOf (pack64 pocket board) = _
    rw [boardOf_pack64 _ _ hplt hblt (le_of_eq hpl) (le_of_eq hbl), padTo_self _ _ hbl]
  have hpeq : (unpack64 (pack64 pocket board)).1 =
      (sortDesc pocket).filter (fun c => decide (c ≠ 0)) := by
    show pocketOf (pack64 pocket board) = _
    rw [pocketOf_pack64 _ _ hplt hblt (le_of_eq hpl) (le_of_eq hbl), padTo_self _ _ hpl]
  have hbperm : ((sortDesc board).filter (fun c => decide (c ≠ 0))).Perm
      (board.filter (fun c => decide (c ≠ 0))) := (sortDesc_perm board).filter _
  have hpperm : ((sortDesc pocket).filter (fun c => decide (c ≠ 0))).Perm
      (pocket.filter (fun c => decide (c ≠ 0))) := (sortDesc_perm pocket).filter _
  refine ⟨?_, ?_, ?_, ?_, ?_, ?_⟩
  · rw [hbeq]
    exact List.Pairwise.filter _ (sortDesc_sorted _)
  · rw [hbeq]
    exact hbperm
  · rw [hbeq]
    exact hbperm.length_eq
  · rw [hpeq]
    exact List.Pairwise.filter _ (sortDesc_sorted _)
  · rw [hpeq]
    exact hpperm
  · rw [hpeq]
    exact hpperm.length_eq

/-- Witness for C8 at pocket [52, 1, 5, 0] and board [36, 40, 44, 48, 0]:
the hypotheses hold and unpack64 returns the descending non-zero cards of
each group. -/
theorem claim_C8_pack_unpack_witness :
    ([52, 1, 5, 0] : List Nat).length = 4 ∧
    ([36, 40, 44, 48, 0] : List Nat).length = 5 ∧
    (unpack64 (pack64 [52, 1, 5, 0] [36, 40, 44, 48, 0])).2.Perm
      (([36, 40, 44, 48, 0] : List Nat).filter (fun c => decide (c ≠ 0))) ∧
    (unpack64 (pack64 [52, 1, 5, 0] [36, 40, 44, 48, 0])).1.Perm
      (([52, 1, 5, 0] : List Nat).filter (fun c => decide (c ≠ 0))) :=
  ⟨rfl, rfl,
    (claim_C8_pack_unpack [52, 1, 5, 0] [36, 40, 44, 48, 0] rfl rfl
      (by decide) (by decide) (by decide)).2.1,
    (claim_C8_pack_unpack [52, 1, 5, 0] [36, 40, 44, 48, 0] rfl rfl
      (by decide) (by decide) (by decide)).2.2.2.2.1⟩

/-- C9: the flush-suit transition never prunes: for every ID with at most
8 occupied slots and every new_card in 0..52, add_card_to_id_flush_suits
returns a non-zero ID, so the process_ids branch that writes the fan-in
offset for a zero transition result is never taken in the FS automaton. -/
theorem claim_C9_fs_never_prunes (id new_card : Nat)
    (h8 : count_cards id ≤ 8) (hc : new_card ≤ 52) :
    add_card_to_id_flush_suits id new_card ≠ 0 := by
  have hf := fold_flush_suits_facts new_card (by omega)
  rw [shape_flush_suits]
  by_cases hb5 : (boardOf id).length < 5
  · have hadd : add_card (fold_flush_suits new_card) (pocketOf id) (boardOf id) =
        (pocketOf id, boardOf id ++ [fold_flush_suits new_card]) := by
      unfold add_card
      rw [if_pos hb5]
    rw [hadd]
    exact pack64_ne_zero _ _ (Or.inr (by simp)) hf.1
  · have hadd : add_card (fold_flush_suits new_card) (pocketOf id) (boardOf id) =
        (pocketOf id ++ [fold_flush_suits new_card], boardOf id) := by
      unfold add_card
      rw [if_neg hb5]
    rw [hadd]
    exact pack64_ne_zero _ _ (Or.inl (by simp)) hf.1

/-- Witness for C9 at the empty ID and card 5. -/
theorem claim_C9_fs_never_prunes_witness :
    count_cards 0 ≤ 8 ∧ (5 : Nat) ≤ 52 ∧ add_card_to_id_flush_suits 0 5 ≠ 0 :=
  ⟨by decide, by decide, claim_C9_fs_never_prunes 0 5 (by decide) (by decide)⟩

theorem countP_add_countP_le_length (l : List Nat) (p q : Nat → Bool)
    (h : ∀ x, ¬(p x = true ∧ q x = true)) :
    l.countP p + l.countP q ≤ l.length := by
  induction l with
  | nil => simp
  | cons x xs ih =>
    rw [List.countP_cons, List.countP_cons, List.length_cons]
    by_cases hp : p x = true
    · have hq : ¬ q x = true := fun hq => h x ⟨hp, hq⟩
      simp [hp, hq]
      omega
    · by_cases hq : q x = true <;> simp [hp, hq] <;> omega

theorem count_add_count_le_length (l : List Nat) (a b : Nat) (hab : a ≠ b) :
    l.count a + l.count b ≤ l.length := by
  rw [List.count_eq_countP, List.count_eq_countP]
  apply countP_add_countP_le_length
  intro x hx
  exact hab ((beq_iff_eq.1 hx.1).symm.trans (beq_iff_eq.1 hx.2))

theorem flush_possible_unique (id : Nat) {s t : Nat} (hne : s ≠ t)
    (hfs : flush_possible id s) (hft : flush_possible id t) : False := by
  unfold flush_possible at hfs hft
  have hcs : 3 ≤ (skip_board (boardOf id)).count s := by omega
  have hct : 3 ≤ (skip_board (boardOf id)).count t := by omega
  have hlen : (skip_board (boardOf id)).length ≤ 5 :=
    le_trans (List.length_filter_le _ _) (length_boardOf_le id)
  have hsum := count_add_count_le_length (skip_board (boardOf id)) s t hne
  omega

theorem eval_flush_suits_eq_iff (id : Nat) (s : Nat) (hs1 : 1 ≤ s) (hs4 : s ≤ 4) :
    eval_flush_suits id = (s : Int) ↔ flush_possible id s := by
  have hu : ∀ v, v ≠ s → flush_possible id v → ¬ flush_possible id s :=
    fun v hv hfv hfs => flush_possible_unique id hv hfv hfs
  interval_cases s
  · unfold eval_flush_suits
    split_ifs with h1 h2 h3 h4
    · exact ⟨fun _ => h1, fun _ => by norm_num⟩
    · exact ⟨fun hx => absurd hx (by decide), fun hp => absurd hp (hu 2 (by decide) h2)⟩
    · exact ⟨fun hx => absurd hx (by decide), fun hp => absurd hp (hu 3 (by decide) h3)⟩
    · exact ⟨fun hx => absurd hx (by decide), fun hp => absurd hp (hu 4 (by decide) h4)⟩
    · exact ⟨fun hx => absurd hx (by decide), fun hp => absurd hp h1⟩
  · unfold eval_flush_suits
    split_ifs with h1 h2 h3 h4
    · exact ⟨fun hx => absurd hx (by decide), fun hp => absurd hp (hu 1 (by decide) h1)⟩
    · exact ⟨fun _ => h2, fun _ => by norm_num⟩
    · exact ⟨fun hx => absurd hx (by decide), fun hp => absurd hp (hu 3 (by decide) h3)⟩
    · exact ⟨fun hx => absurd hx (by decide), fun hp => absurd hp (hu 4 (by decide) h4)⟩
    · exact ⟨fun hx => absurd hx (by decide), fun hp => absurd hp h2⟩
  · unfold eval_flush_suits
    split_ifs with h1 h2 h3 h4
    · exact ⟨fun hx => absurd hx (by decide), fun hp => absurd hp (hu 1 (by decide) h1)⟩
    · exact ⟨fun hx => absurd hx (by decide), fun hp => absurd hp (hu 2 (by decide) h2)⟩
    · exact ⟨fun _ => h3, fun _ => by norm_num⟩
    · exact ⟨fun hx => absurd hx (by decide), fun hp => absurd hp (hu 4 (by decide) h4)⟩
    · exact ⟨fun hx => absurd hx (by decide), fun hp => absurd hp h3⟩
  · unfold eval_flush_suits
    split_ifs with h1 h2 h3 h4
    · exact ⟨fun hx => absurd hx (by decide), fun hp => absurd hp (hu 1 (by decide) h1)⟩
    · exact ⟨fun hx => absurd hx (by decide), fun hp => absurd hp (hu 2 (by decide) h2)⟩
    · exact ⟨fun hx => absurd hx (by decide), fun hp => absurd hp (hu 3 (by decide) h3)⟩
    · exact ⟨fun _ => h4, fun _ => by norm_num⟩
    · exact ⟨fun hx => absurd hx (by decide), fun hp => absurd hp h4⟩

/-- C10: for every FS ID whose slots hold only valid folded values (0,
suits 1..4, or the skip sentinel 53), at most one suit s satisfies
min(pocket count, 2) + min(non-skip board count, 3) >= 5; eval_flush_suits
returns that unique suit, or -1 exactly when no suit qualifies, so its
result is fully determined by the clamped histograms and does not depend
on the order in which the suits are scanned. -/
theorem claim_C10_fs_eval_unique (id : Nat)
    (hvalid : ∀ x ∈ slots9 id, x = 0 ∨ x = 53 ∨ (1 ≤ x ∧ x ≤ 4)) :
    (∀ s t : Nat, 1 ≤ s → s ≤ 4 → 1 ≤ t → t ≤ 4 →
      flush_possible id s → flush_possible id t → s = t) ∧
    (∀ s : Nat, 1 ≤ s → s ≤ 4 → (eval_flush_suits id = (s : Int) ↔ flush_possible id s)) ∧
    (eval_flush_suits id = -1 ↔ ∀ s : Nat, 1 ≤ s → s ≤ 4 → ¬ flush_possible id s) := by
  refine ⟨?_, ?_, ?_⟩
  · intro s t hs1 hs4 ht1 ht4 hfs hft
    by_contra hne
    exact flush_possible_unique id hne hfs hft
  · exact fun s hs1 hs4 => eval_flush_suits_eq_iff id s hs1 hs4
  · constructor
    · intro hx s hs1 hs4 hp
      have := (eval_flush_suits_eq_iff id s hs1 hs4).2 hp
      rw [hx] at this
      interval_cases s <;> exact absurd this (by decide)
    · intro hall
      unfold eval_flush_suits
      split_ifs with h1 h2 h3 h4
      · exact absurd h1 (hall 1 (by decide) (by decide))
      · exact absurd h2 (hall 2 (by decide) (by decide))
      · exact absurd h3 (hall 3 (by decide) (by decide))
      · exact absurd h4 (hall 4 (by decide) (by decide))
      · rfl

/-- Witness for C10 at the ID with pocket [4, 4, 1, 1] and board
[4, 4, 4, 1, 1]: the slots are valid and the evaluator reports suit 4. -/
theorem claim_C10_fs_eval_unique_witness :
    (∀ x ∈ slots9 (pack64 [4, 4, 1, 1] [4, 4, 4, 1, 1]),
      x = 0 ∨ x = 53 ∨ (1 ≤ x ∧ x ≤ 4)) ∧
    (eval_flush_suits (pack64 [4, 4, 1, 1] [4, 4, 4, 1, 1]) = (4 : Int) ↔
      flush_possible (pack64 [4, 4, 1, 1] [4, 4, 4, 1, 1]) 4) :=
  ⟨by decide,
    (claim_C10_fs_eval_unique (pack64 [4, 4, 1, 1] [4, 4, 4, 1, 1])
      (by decide)).2.1 4 (by decide) (by decide)⟩

/-- C6 counterexample: for the ID whose board is five suited ranks
14..10 and whose pocket slots hold three skip sentinels 53, adding a
non-suited card (raw card 1, target suit 4) produces a state with a
5-card board and 4 pocket cards of which none is a suited rank in 2..14,
yet the transition does not return 0: the code counts the pocket
sentinels 53 (value not in {0, 1}) as suited. -/
theorem claim_C6_fr_prune_counterexample :
    (add_card (fold_flush_ranks 1 4) (pocketOf (pack64 [53, 53, 53] [14, 13, 12, 11, 10]))
      (boardOf (pack64 [53, 53, 53] [14, 13, 12, 11, 10]))).2.length = 5 ∧
    (add_card (fold_flush_ranks 1 4) (pocketOf (pack64 [53, 53, 53] [14, 13, 12, 11, 10]))
      (boardOf (pack64 [53, 53, 53] [14, 13, 12, 11, 10]))).1.length = 4 ∧
    (add_card (fold_flush_ranks 1 4) (pocketOf (pack64 [53, 53, 53] [14, 13, 12, 11, 10]))
      (boardOf (pack64 [53, 53, 53] [14, 13, 12, 11, 10]))).1.countP
      (fun c => decide (2 ≤ c) && decide (c ≤ 14)) < 2 ∧
    add_card_to_id_flush_ranks (pack64 [53, 53, 53] [14, 13, 12, 11, 10]) 1 4 ≠ 0 := by
  decide

/-- C6 amended: the FR transition returns 0 whenever the state after
adding the folded card has a 4-card board with fewer than 2 suited board
cards, or a 5-card board with fewer than 3 suited board cards, or a
5-card board and 4 pocket cards with fewer than 2 suited pocket cards --
where a board card is suited when its value is not 0, 1 or 53, and a
pocket card is suited when its value is not 0 or 1 (the code counts the
53 sentinel in the pocket as suited). -/
theorem claim_C6_fr_prune (id new_card flush_suit : Nat)
    (h :
      ((add_card (fold_flush_ranks new_card flush_suit) (pocketOf id) (boardOf id)).2.length = 4 ∧
        (add_card (fold_flush_ranks new_card flush_suit) (pocketOf id) (boardOf id)).2.countP
          (fun c => decide (c ≠ 1) && decide (c ≠ 53) && decide (c ≠ 0)) < 2) ∨
      ((add_card (fold_flush_ranks new_card flush_suit) (pocketOf id) (boardOf id)).2.length = 5 ∧
        (add_card (fold_flush_ranks new_card flush_suit) (pocketOf id) (boardOf id)).2.countP
          (fun c => decide (c ≠ 1) && decide (c ≠ 53) && decide (c ≠ 0)) < 3) ∨
      ((add_card (fold_flush_ranks new_card flush_suit) (pocketOf id) (boardOf id)).2.length = 5 ∧
        (add_card (fold_flush_ranks new_card flush_suit) (pocketOf id) (boardOf id)).1.length = 4 ∧
        (add_card (fold_flush_ranks new_card flush_suit) (pocketOf id) (boardOf id)).1.countP
          (fun c => decide (c ≠ 1) && decide (c ≠ 0)) < 2)) :
    add_card_to_id_flush_ranks id new_card flush_suit = 0 := by
  simp only [add_card_to_id_flush_ranks]
  split_ifs with hd1 hd2 hc1 hc2 hc3 hc4
  · rfl
  · rfl
  · rfl
  · rfl
  · rfl
  · rfl
  · exfalso
    rcases h with ⟨hlen, hcnt⟩ | ⟨hlen, hcnt⟩ | ⟨hlen, hplen, hcnt⟩
    · exact hc1 ⟨hlen, by omega⟩
    · exact hc2 ⟨hlen, by omega⟩
    · exact hc4 ⟨hlen, hplen, by omega⟩

/-- Witness for C6 at the ID with board [14, 1, 1]: adding a non-suited
card gives a 4-card board with one suited card, so the transition prunes. -/
theorem claim_C6_fr_prune_witness :
    ((add_card (fold_flush_ranks 1 4) (pocketOf (pack64 [] [14, 1, 1]))
        (boardOf (pack64 [] [14, 1, 1]))).2.length = 4 ∧
      (add_card (fold_flush_ranks 1 4) (pocketOf (pack64 [] [14, 1, 1]))
        (boardOf (pack64 [] [14, 1, 1]))).2.countP
        (fun c => decide (c ≠ 1) && decide (c ≠ 53) && decide (c ≠ 0)) < 2) ∧
    add_card_to_id_flush_ranks (pack64 [] [14, 1, 1]) 1 4 = 0 :=
  ⟨by decide, claim_C6_fr_prune (pack64 [] [14, 1, 1]) 1 4 (Or.inl (by decide))⟩

/-- C2 counterexample: for board = five spades (52, 48, 44, 40, 36) and
pocket = four clubs (49, 45, 41, 37), the FS evaluation yields -1 (no
flush), not suit 4: the pocket histogram caps at 2 and the board histogram
caps at 3, so five suited board cards alone never reach 5; the flush-suit
chain therefore does not yield fs = 4. -/
theorem claim_C2_counterexample :
    eval_flush_suits (([52, 48, 44, 40, 36, 49, 45, 41, 37] : List Nat).foldl
      add_card_to_id_flush_suits 0) = -1 ∧
    eval_flush_suits (([52, 48, 44, 40, 36, 49, 45, 41, 37] : List Nat).foldl
      add_card_to_id_flush_suits 0) ≠ 4 := by
  decide

/-- C2 amended: for the five-spade board with a four-club pocket, the FS
evaluation yields -1, which the FS remap stores as 0 (no flush); the FR
suit-4 chain prunes before reaching nine cards (the transition on the
third pocket club returns 0); and with fs = 0 the section 4.6 protocol
takes the final score from the non-flush chain alone. -/
theorem claim_C2_amended :
    eval_flush_suits (([52, 48, 44, 40, 36, 49, 45, 41, 37] : List Nat).foldl
      add_card_to_id_flush_suits 0) = -1 ∧
    map_fs (eval_flush_suits (([52, 48, 44, 40, 36, 49, 45, 41, 37] : List Nat).foldl
      add_card_to_id_flush_suits 0)) = 0 ∧
    add_card_to_id_flush_ranks_4 (([52, 48, 44, 40, 36, 49, 45] : List Nat).foldl
      add_card_to_id_flush_ranks_4 0) 41 = 0 ∧
    (∀ HRn : Int → Int, ∀ c : List Nat, chain9 HRn 106 c = 0 →
      score_new HRn c = chain9 HRn (HRn 0 + 53) c) := by
  refine ⟨by decide, by decide, by decide, ?_⟩
  intro HRn c h0
  simp only [score_new]
  rw [h0]
  simp

/-- Witness for C2: the protocol clause applied at a concrete table. -/
theorem claim_C2_amended_witness :
    chain9 (fun x => (0 : Int)) 106 [1] = 0 ∧
    score_new (fun x => (0 : Int)) [1] =
      chain9 (fun x => (0 : Int)) ((fun x => (0 : Int)) 0 + 53) [1] :=
  ⟨rfl, claim_C2_amended.2.2.2 (fun x => (0 : Int)) [1] rfl⟩

theorem fs_board5_mem : (1082196484 : Nat) ∈ generate_ids add_card_to_id_flush_suits := by
  have h0 : (0 : Nat) ∈ gen_queue add_card_to_id_flush_suits 0 := by
    simp [gen_queue]
  have h1 : add_card_to_id_flush_suits 0 36 ∈ gen_queue add_card_to_id_flush_suits 1 :=
    mem_next_gen h0 (by decide) (by decide) (by decide)
  rw [show add_card_to_id_flush_suits 0 36 = 4 from by decide] at h1
  have h2 : add_card_to_id_flush_suits 4 36 ∈ gen_queue add_card_to_id_flush_suits 2 :=
    mem_next_gen h1 (by decide) (by decide) (by decide)
  rw [show add_card_to_id_flush_suits 4 36 = 516 from by decide] at h2
  have h3 : add_card_to_id_flush_suits 516 36 ∈ gen_queue add_card_to_id_flush_suits 3 :=
    mem_next_gen h2 (by decide) (by decide) (by decide)
  rw [show add_card_to_id_flush_suits 516 36 = 66052 from by decide] at h3
  have h4 : add_card_to_id_flush_suits 66052 36 ∈ gen_queue add_card_to_id_flush_suits 4 :=
    mem_next_gen h3 (by decide) (by decide) (by decide)
  rw [show add_card_to_id_flush_suits 66052 36 = 8454660 from by decide] at h4
  have h5 : add_card_to_id_flush_suits 8454660 36 ∈ gen_queue add_card_to_id_flush_suits 5 :=
    mem_next_gen h4 (by decide) (by decide) (by decide)
  rw [show add_card_to_id_flush_suits 8454660 36 = 1082196484 from by decide] at h5
  exact mem_generate_ids (by decide) (by decide) h5

/-- C3 counterexample: the FS ID 1082196484, whose five board slots all
hold suit 4 (reached by adding card 36 five times), is produced by the
enumerator, so FS IDs are not clamped to at most 3 equal board suits. -/
theorem claim_C3_fs_clamp_counterexample :
    (1082196484 : Nat) ∈ generate_ids add_card_to_id_flush_suits ∧
    3 < (boardOf 1082196484).count 4 :=
  ⟨fs_board5_mem, by decide⟩

/-- C3 amended: the FS transition does not clamp suit counts; an
enumerated FS ID can carry a suit five times on the board.  The clamping
min(count + 1, cap) with caps 2 (pocket) and 3 (board) happens only in the
histograms of eval_flush_suits, which therefore reports no flush for the
all-spade board with no suited pocket card. -/
theorem claim_C3_fs_clamp_amended :
    (1082196484 : Nat) ∈ generate_ids add_card_to_id_flush_suits ∧
    (boardOf 1082196484).count 4 = 5 ∧
    eval_flush_suits 1082196484 = -1 :=
  ⟨fs_board5_mem, by decide, by decide⟩

/-- C4 counterexample: a terminal evaluator called on an ID with too few
cards does not abort generation; it returns an ordinary in-band value.
eval_no_flush returns the score 0 on an ID with only 2 pocket cards, and
eval_flush_ranks returns the sentinel -1 on an ID with only 1 pocket
card, for any oracle tables; generation then continues with these values. -/
theorem claim_C4_abort_counterexample :
    eval_no_flush (fun x => 0) (fun x => 0) (fun x => 0) (fun x => 0)
      (pack64 [1, 2] [1, 2, 3, 4, 5]) = 0 ∧
    eval_flush_ranks (fun x => 0) (fun x => 0) (pack64 [7] [2, 3, 4, 5, 6]) = -1 := by
  decide

/-- C4 amended: on an invariant violation the terminal evaluators print a
diagnostic identifying the offending ID and return an in-band sentinel
instead of aborting: eval_no_flush returns 0 whenever the ID has fewer
than 4 pocket or fewer than 3 non-skip board cards, and eval_flush_ranks
returns -1 whenever a zero sits among its first two pocket or first three
non-skip board slots; generation continues with these values for any
oracle tables. -/
theorem claim_C4_diagnostic_values (unique5 values : Nat → Int) (cactus_findit : Nat → Nat)
    (flushes : Nat → Int) (cactus_to_ray : Int → Int) (id1 id2 : Nat) :
    ((pocketOf id1).length < 4 ∨ (skip_board (boardOf id1)).length < 3 →
      eval_no_flush unique5 values cactus_findit cactus_to_ray id1 = 0) ∧
    ((pocketOf id2).getD 0 0 = 0 ∨ (pocketOf id2).getD 1 0 = 0 ∨
        (skip_board (boardOf id2)).getD 0 0 = 0 ∨ (skip_board (boardOf id2)).getD 1 0 = 0 ∨
        (skip_board (boardOf id2)).getD 2 0 = 0 →
      eval_flush_ranks flushes cactus_to_ray id2 = -1) := by
  constructor
  · intro h
    simp only [eval_no_flush]
    rw [if_pos h]
  · intro h
    simp only [eval_flush_ranks]
    rw [if_pos h]

/-- Witness for C4 at the two IDs of the counterexample. -/
theorem claim_C4_diagnostic_values_witness :
    ((pocketOf (pack64 [1, 2] [1, 2, 3, 4, 5])).length < 4 ∨
      (skip_board (boardOf (pack64 [1, 2] [1, 2, 3, 4, 5]))).length < 3) ∧
    eval_no_flush (fun x => 0) (fun x => 0) (fun x => 0) (fun x => 0)
      (pack64 [1, 2] [1, 2, 3, 4, 5]) = 0 ∧
    eval_flush_ranks (fun x => 0) (fun x => 0) (pack64 [7] [2, 3, 4, 5, 6]) = -1 :=
  ⟨Or.inl (by decide),
    (claim_C4_diagnostic_values (fun x => 0) (fun x => 0) (fun x => 0) (fun x => 0)
      (fun x => 0) (pack64 [1, 2] [1, 2, 3, 4, 5]) (pack64 [7] [2, 3, 4, 5, 6])).1
      (Or.inl (by decide)),
    (claim_C4_diagnostic_values (fun x => 0) (fun x => 0) (fun x => 0) (fun x => 0)
      (fun x => 0) (pack64 [1, 2] [1, 2, 3, 4, 5]) (pack64 [7] [2, 3, 4, 5, 6])).2
      (Or.inr (Or.inl (by decide)))⟩

theorem skip_rules_for (step : Nat → Nat → Nat) (fold : Nat → Nat)
    (hshape : ∀ id c, step id c ≠ 0 → step id c =
      pack64 (add_card (fold c) (pocketOf id) (boardOf id)).1
        (add_card (fold c) (pocketOf id) (boardOf id)).2)
    (hfold : ∀ c, c < 53 → fold c ≠ 0 ∧ fold c ≤ 53 ∧ (c ≠ 0 → fold c ≠ 53))
    (hstep : ∀ id c, c ≤ 52 → count_cards id ≤ 8 → step id c ≠ 0 →
      count_cards (step id c) = count_cards id + 1) :
    (∀ n : Nat, 1 ≤ n → n ≤ 8 → gen_min_card n = 0 →
      ∀ id ∈ gen_queue step (n - 1), count_cards id ≤ 2) ∧
    (∀ id ∈ generate_ids step,
      53 ∉ pocketOf id ∧ ∀ j : Nat, 2 ≤ j → (boardOf id).getD j 0 ≠ 53) := by
  constructor
  · intro n h1 h8 hmin id hid
    have hcnt := gen_queue_count step hstep (n - 1) (by omega) id hid
    have hn2 : n ≤ 2 := by
      by_cases h2 : n ≤ 2
      · exact h2
      · unfold gen_min_card at hmin
        rw [if_neg h2] at hmin
        omega
    omega
  · intro id hid
    rcases mem_generate_ids_elim hid with rfl | ⟨n, hn1, hn8, hq⟩
    · constructor
      · decide
      · intro j hj
        have h0 : boardOf 0 = [] := by decide
        rw [h0, List.getD_eq_default _ _ (by simp)]
        omega
    · obtain ⟨hp53, hcount53, hple, hble, hsorted⟩ :=
        gen_queue_skip step fold hshape hfold hstep n hn8 id hq
      exact ⟨hp53, sorted_desc_getD_ne hsorted hble (le_trans hcount53 (by omega))⟩

/-- C5: skip handling in the enumerator and the table assembler.  The
card value 0 (stored as the sentinel 53) is attempted by generate_ids
only in generations whose IDs hold at most 2 cards (in fact at most 1),
process_ids allows it only on IDs with at most 2 cards (in fact at most
1), IDs with more than 2 cards get min_card = 1 in both, and in every
enumerated ID of all three automata the sentinel 53 never sits in a
pocket slot and sits only at board positions 0 and 1. -/
theorem claim_C5_skip_rules :
    (∀ n_cards : Nat, gen_min_card n_cards = 0 → n_cards ≤ 2) ∧
    (∀ num_cards : Nat, proc_min_card num_cards = 0 → num_cards ≤ 2) ∧
    (∀ num_cards : Nat, 2 < num_cards →
      gen_min_card num_cards = 1 ∧ proc_min_card num_cards = 1) ∧
    (∀ step ∈ ([add_card_to_id_flush_suits, add_card_to_id_flush_ranks_4,
        add_card_to_id_no_flush] : List (Nat → Nat → Nat)),
      (∀ n : Nat, 1 ≤ n → n ≤ 8 → gen_min_card n = 0 →
        ∀ id ∈ gen_queue step (n - 1), count_cards id ≤ 2) ∧
      (∀ id ∈ generate_ids step,
        53 ∉ pocketOf id ∧ ∀ j : Nat, 2 ≤ j → (boardOf id).getD j 0 ≠ 53)) := by
  refine ⟨?_, ?_, ?_, ?_⟩
  · intro n h
    by_cases h2 : n ≤ 2
    · exact h2
    · unfold gen_min_card at h
      rw [if_neg h2] at h
      omega
  · intro n h
    by_cases h2 : n ≤ 1
    · omega
    · unfold proc_min_card at h
      rw [if_neg h2] at h
      omega
  · intro n h
    constructor
    · unfold gen_min_card
      rw [if_neg (by omega)]
    · unfold proc_min_card
      rw [if_neg (by omega)]
  · intro step hmem
    simp only [List.mem_cons, List.not_mem_nil, or_false] at hmem
    rcases hmem with rfl | rfl | rfl
    · exact skip_rules_for _ fold_flush_suits hshape_flush_suits hfold_flush_suits
        hstep_flush_suits
    · exact skip_rules_for _ (fun c => fold_flush_ranks c 4) hshape_flush_ranks_4
        hfold_flush_ranks_4 hstep_flush_ranks_4
    · exact skip_rules_for _ fold_no_flush hshape_no_flush hfold_no_flush hstep_no_flush

/-- Witness for C5: concrete instances of each clause. -/
theorem claim_C5_skip_rules_witness :
    (2 : Nat) ≤ 2 ∧ (1 : Nat) ≤ 2 ∧ gen_min_card 3 = 1 ∧ proc_min_card 3 = 1 ∧
    (53 ∉ pocketOf 0 ∧ ∀ j : Nat, 2 ≤ j → (boardOf 0).getD j 0 ≠ 53) :=
  ⟨claim_C5_skip_rules.1 2 (by decide),
    claim_C5_skip_rules.2.1 1 (by decide),
    (claim_C5_skip_rules.2.2.1 3 (by decide)).1,
    (claim_C5_skip_rules.2.2.1 3 (by decide)).2,
    (claim_C5_skip_rules.2.2.2 add_card_to_id_flush_suits (by simp)).2 0
      (zero_mem_generate_ids add_card_to_id_flush_suits)⟩

/-- C7: for each of the three transition functions, the global ID list of
generate_ids is strictly increasing (sorted with no duplicates), and every
ID appended during generation n decodes to exactly n non-zero 7-bit card
slots (the skip sentinel 53 counting as non-zero). -/
theorem claim_C7_generate_ids_sorted (step : Nat → Nat → Nat)
    (hmem : step ∈ ([add_card_to_id_flush_suits, add_card_to_id_flush_ranks_4,
      add_card_to_id_no_flush] : List (Nat → Nat → Nat))) :
    List.Sorted (· < ·) (generate_ids step) ∧
    ∀ n : Nat, 1 ≤ n → n ≤ 8 → ∀ id ∈ gen_queue step n, count_cards id = n := by
  have hstep : ∀ id c, c ≤ 52 → count_cards id ≤ 8 → step id c ≠ 0 →
      count_cards (step id c) = count_cards id + 1 := by
    simp only [List.mem_cons, List.not_mem_nil, or_false] at hmem
    rcases hmem with rfl | rfl | rfl
    · exact hstep_flush_suits
    · exact hstep_flush_ranks_4
    · exact hstep_no_flush
  exact ⟨generate_ids_sorted_lt step hstep,
    fun n _ h8 => gen_queue_count step hstep n h8⟩

/-- Witness for C7: the flush-suit automaton, where the single-suit ID 4
sits in generation 1 with exactly one non-zero slot. -/
theorem claim_C7_generate_ids_sorted_witness :
    add_card_to_id_flush_suits ∈ ([add_card_to_id_flush_suits,
      add_card_to_id_flush_ranks_4, add_card_to_id_no_flush] :
      List (Nat → Nat → Nat)) ∧
    (4 : Nat) ∈ gen_queue add_card_to_id_flush_suits 1 ∧ count_cards 4 = 1 :=
  ⟨by simp, by decide,
    (claim_C7_generate_ids_sorted add_card_to_id_flush_suits (by simp)).2 1
      (by decide) (by decide) 4 (by decide)⟩

theorem mem_verifier_pairs {k : Nat} {c : List Nat} (hk : k < 3) (hc : c ∈ test_combos k) :
    (k, c) ∈ (List.range 3).flatMap (fun k => (test_combos k).map (fun c => (k, c))) :=
  List.mem_flatMap.2 ⟨k, List.mem_range.2 hk, List.mem_map.2 ⟨c, hc, rfl⟩⟩

/-- C1: the verifier test_all_handranks walks, for every hand size k in
{7, 8, 9}, every sorted k-card combination of distinct cards in 1..52
(with leading zeros for k < 9), compares the new table's section 4.6
score against the reference score (the maximum over the 6 pocket pairs
and the 1 / 4 / 10 board triples of the 7-card reference table), returns
0 exactly when every combination matches, and returns 1 exactly when some
combination mismatches (stopping at the first one in loop order). -/
theorem claim_C1_verifier (HRn HRo : Int → Int) :
    (test_all_handranks HRn HRo = 0 ↔
      ∀ k : Nat, k < 3 → ∀ c ∈ test_combos k, score_new HRn c = score_old HRo k c) ∧
    (test_all_handranks HRn HRo = 1 ↔
      ∃ k : Nat, k < 3 ∧ ∃ c ∈ test_combos k, score_new HRn c ≠ score_old HRo k c) := by
  unfold test_all_handranks
  rcases hfm : first_mismatch HRn HRo with _ | kc
  · have hnone := List.find?_eq_none.1 hfm
    constructor
    · constructor
      · intro _ k hk c hc
        have h := hnone (k, c) (mem_verifier_pairs hk hc)
        simpa using h
      · intro _
        rfl
    · constructor
      · intro h01
        have h01b : (0 : Int) = 1 := h01
        exact absurd h01b (by decide)
      · intro h
        obtain ⟨k, hk, c, hc, hne⟩ := h
        have h2 := hnone (k, c) (mem_verifier_pairs hk hc)
        simp only [decide_eq_true_eq] at h2
        exact absurd hne h2
  · have hp := List.find?_some hfm
    have hmem := List.mem_of_find?_eq_some hfm
    obtain ⟨k, hkmem, hmap⟩ := List.mem_flatMap.1 hmem
    obtain ⟨c, hc, hkc⟩ := List.mem_map.1 hmap
    rw [List.mem_range] at hkmem
    simp only [decide_eq_true_eq] at hp
    constructor
    · constructor
      · intro h10
        have h10b : (1 : Int) = 0 := h10
        exact absurd h10b (by decide)
      · intro hall
        exfalso
        apply hp
        have : kc.1 = k ∧ kc.2 = c := by
          rw [← hkc]
          exact ⟨rfl, rfl⟩
        rw [this.1, this.2]
        exact hall k hkmem c hc
    · constructor
      · intro _
        refine ⟨k, hkmem, c, hc, ?_⟩
        have : kc.1 = k ∧ kc.2 = c := by
          rw [← hkc]
          exact ⟨rfl, rfl⟩
        rw [← this.1, ← this.2]
        exact hp
      · intro _
        rfl
